import Mathlib

/-!
Verification of the Spaces run-reporting dispatcher
(`cli/internal/runsummary/spaces.go`).

The development shallow-embeds the Go source:
* wire payload structs and their builders (`newSpacesRunCreatePayload`,
  `newSpacesDonePayload`, `newSpacesTaskPayload`) as pure functions,
  together with a model of Go `encoding/json` field emission for the
  struct tags appearing in the source;
* `makeRequest` as a pure state transformer over the client's mutable
  state (the run handle and the error list), with the external
  collaborators (`api.IsLinked`, `api.JSONPost`, `api.JSONPatch`,
  `json.Marshal`) as an environment of oracles;
* the 8-goroutine worker pool of `newSpacesClient`, the `firstReqDone`
  gate and the `created` channel as a small-step transition system;
* the unsynchronized `c.errors = append(c.errors, err)` statement as a
  fine-grained read/write pair, to analyse its concurrency behaviour;
* Go's channel-close semantics (closing a closed channel panics) for
  `Close`.
-/

namespace TurboSpaces

/-! ## Data carried by run and task summaries

These types live outside the dispatcher file; only the fields the
dispatcher actually reads are modelled. -/

/-- Modelled from the spec: VCS branch/sha recorded in the run summary
(`rsm.RunSummary.SCM`). -/
structure scmState where
  Branch : String
  Sha : String

/-- Modelled from the spec: run execution timestamps and exit code
(`rsm.RunSummary.ExecutionSummary`); times are Unix milliseconds, the
value `startedAt.UnixMilli()` / `endedAt.UnixMilli()` produce. -/
structure executionSummary where
  startedAt : Int
  endedAt : Int
  exitCode : Int

/-- Modelled from the spec: the in-memory run summary supplying payload
content (user, client version, SCM state, execution summary). -/
structure RunSummary where
  ExecutionSummary : executionSummary
  SCM : scmState
  User : String
  TurboVersion : String

/-- Modelled from the spec: the run-summary metadata (`*Meta`) the
client is constructed with: space identifier, synthesized command line,
repository path, and the run summary.  `ciConstant` carries the ambient
result of the external CI detection `ci.Constant()`. -/
structure Meta where
  spaceID : String
  synthesizedCommand : String
  repoPath : String
  ciConstant : String
  RunSummary : RunSummary

/-- Modelled from the spec: per-task execution record
(`taskSummary.Execution`); `endTime` is the value of the source's
`endTime()` accessor, times in Unix milliseconds. -/
structure taskExecutionSummary where
  startAt : Int
  endTime : Int
  exitCode : Int

/-- Modelled from the spec: cache outcome of one task
(`taskSummary.CacheSummary`), field-for-field the shape the dispatcher
converts to its wire form. -/
structure TaskCacheSummary where
  Local : Bool
  Remote : Bool
  Status : String
  Source : String
  TimeSaved : Int

/-- Modelled from the spec: the in-memory task summary
(`*TaskSummary`); `Logs` is the text returned by `GetLogs()`. -/
structure TaskSummary where
  TaskID : String
  Task : String
  Package : String
  Hash : String
  Execution : taskExecutionSummary
  Dependencies : List String
  Dependents : List String
  Logs : String
  CacheSummary : TaskCacheSummary

/-! ## Wire payload types (spaces.go lines 207-251) -/

/-- `spacesClientSummary` (spaces.go 207-211). -/
structure spacesClientSummary where
  ID : String
  Name : String
  Version : String

/-- `spacesRunPayload` (spaces.go 213-226).  The Go field `Type` is
spelled `«Type»` because `Type` is a Lean keyword. -/
structure spacesRunPayload where
  StartTime : Int
  EndTime : Int
  Status : String
  «Type» : String
  ExitCode : Int
  Command : String
  RepositoryPath : String
  Context : String
  Client : spacesClientSummary
  GitBranch : String
  GitSha : String
  User : String

/-- `spacesCacheStatus` (spaces.go 230-237): same fields as
`TaskCacheSummary`, but with json tags that omit `Local` and `Remote`
(`json:"-"`). -/
structure spacesCacheStatus where
  Local : Bool
  Remote : Bool
  Status : String
  Source : String
  TimeSaved : Int

/-- `spacesTask` (spaces.go 239-251). -/
structure spacesTask where
  Key : String
  Name : String
  Workspace : String
  Hash : String
  StartTime : Int
  EndTime : Int
  Cache : spacesCacheStatus
  ExitCode : Int
  Dependencies : List String
  Dependents : List String
  Logs : String

/-! ## Go `encoding/json` emission for the tags in the source

`JValue` is the JSON value model.  For each wire struct,
`jsonFields` lists the key/value pairs `json.Marshal` emits, in struct
order, honouring the tags: a field tagged `json:"-"` is never emitted;
a field tagged `omitempty` is dropped when its value is the Go zero
value (`0`, `""`, `false`, empty slice); untagged-by-`omitempty`
fields are always emitted. -/

inductive JValue where
  | jstr (s : String)
  | jnum (n : Int)
  | jbool (b : Bool)
  | jarr (xs : List JValue)
  | jobj (fields : List (String × JValue))
  deriving Repr

/-- Every object key occurring anywhere in a JSON value — nested
objects and arrays included: the complete set of field names the
emitted JSON contains at any depth. -/
def JValue.allKeys : JValue → List String
  | JValue.jstr _ => []
  | JValue.jnum _ => []
  | JValue.jbool _ => []
  | JValue.jarr [] => []
  | JValue.jarr (x :: xs) => x.allKeys ++ (JValue.jarr xs).allKeys
  | JValue.jobj [] => []
  | JValue.jobj ((k, v) :: fields) =>
      k :: (v.allKeys ++ (JValue.jobj fields).allKeys)

/-- JSON fields of `spacesCacheStatus`: `Local` and `Remote` carry tag
`json:"-"` and are never emitted; `status` has no `omitempty`;
`source` has `omitempty`; `timeSaved` has no `omitempty`. -/
def spacesCacheStatus.jsonFields (c : spacesCacheStatus) : List (String × JValue) :=
  [("status", JValue.jstr c.Status)]
    ++ (if c.Source = "" then [] else [("source", JValue.jstr c.Source)])
    ++ [("timeSaved", JValue.jnum c.TimeSaved)]

/-- JSON fields of `spacesClientSummary` (no `omitempty` tags). -/
def spacesClientSummary.jsonFields (c : spacesClientSummary) : List (String × JValue) :=
  [("id", JValue.jstr c.ID), ("name", JValue.jstr c.Name), ("version", JValue.jstr c.Version)]

/-- JSON fields of `spacesTask`.  `cache` carries `omitempty`, but Go's
`omitempty` has no effect on struct-typed fields, so it is always
emitted; `log` has no `omitempty`. -/
def spacesTask.jsonFields (t : spacesTask) : List (String × JValue) :=
  (if t.Key = "" then [] else [("key", JValue.jstr t.Key)])
    ++ (if t.Name = "" then [] else [("name", JValue.jstr t.Name)])
    ++ (if t.Workspace = "" then [] else [("workspace", JValue.jstr t.Workspace)])
    ++ (if t.Hash = "" then [] else [("hash", JValue.jstr t.Hash)])
    ++ (if t.StartTime = 0 then [] else [("startTime", JValue.jnum t.StartTime)])
    ++ (if t.EndTime = 0 then [] else [("endTime", JValue.jnum t.EndTime)])
    ++ [("cache", JValue.jobj t.Cache.jsonFields)]
    ++ (if t.ExitCode = 0 then [] else [("exitCode", JValue.jnum t.ExitCode)])
    ++ (if t.Dependencies = [] then []
        else [("dependencies", JValue.jarr (t.Dependencies.map JValue.jstr))])
    ++ (if t.Dependents = [] then []
        else [("dependents", JValue.jarr (t.Dependents.map JValue.jstr))])
    ++ [("log", JValue.jstr t.Logs)]

/-- JSON fields of `spacesRunPayload`.  `client`, `gitBranch`, `gitSha`
carry no `omitempty`; everything else except them does. -/
def spacesRunPayload.jsonFields (p : spacesRunPayload) : List (String × JValue) :=
  (if p.StartTime = 0 then [] else [("startTime", JValue.jnum p.StartTime)])
    ++ (if p.EndTime = 0 then [] else [("endTime", JValue.jnum p.EndTime)])
    ++ (if p.Status = "" then [] else [("status", JValue.jstr p.Status)])
    ++ (if p.«Type» = "" then [] else [("type", JValue.jstr p.«Type»)])
    ++ (if p.ExitCode = 0 then [] else [("exitCode", JValue.jnum p.ExitCode)])
    ++ (if p.Command = "" then [] else [("command", JValue.jstr p.Command)])
    ++ (if p.RepositoryPath = "" then []
        else [("repositoryPath", JValue.jstr p.RepositoryPath)])
    ++ (if p.Context = "" then [] else [("context", JValue.jstr p.Context)])
    ++ [("client", JValue.jobj p.Client.jsonFields)]
    ++ [("gitBranch", JValue.jstr p.GitBranch)]
    ++ [("gitSha", JValue.jstr p.GitSha)]
    ++ (if p.User = "" then [] else [("originationUser", JValue.jstr p.User)])

/-! ## Payload builders (spaces.go lines 253-304) -/

/-- `newSpacesRunCreatePayload` (spaces.go 253-276).  Fields absent
from the Go composite literal are the Go zero values. -/
def newSpacesRunCreatePayload (rsm : Meta) : spacesRunPayload :=
  let context := if rsm.ciConstant = "" then "LOCAL" else rsm.ciConstant
  { StartTime := rsm.RunSummary.ExecutionSummary.startedAt
    EndTime := 0
    Status := "running"
    «Type» := "TURBO"
    ExitCode := 0
    Command := rsm.synthesizedCommand
    RepositoryPath := rsm.repoPath
    Context := context
    Client :=
      { ID := "turbo"
        Name := "Turbo"
        Version := rsm.RunSummary.TurboVersion }
    GitBranch := rsm.RunSummary.SCM.Branch
    GitSha := rsm.RunSummary.SCM.Sha
    User := rsm.RunSummary.User }

/-- `newSpacesDonePayload` (spaces.go 278-285). -/
def newSpacesDonePayload (runsummary : RunSummary) : spacesRunPayload :=
  { StartTime := 0
    EndTime := runsummary.ExecutionSummary.endedAt
    Status := "completed"
    «Type» := ""
    ExitCode := runsummary.ExecutionSummary.exitCode
    Command := ""
    RepositoryPath := ""
    Context := ""
    Client := { ID := "", Name := "", Version := "" }
    GitBranch := ""
    GitSha := ""
    User := "" }

/-- The struct conversion `spacesCacheStatus(taskSummary.CacheSummary)`
(spaces.go 298): identical fields, converted one-for-one. -/
def spacesCacheStatusOf (c : TaskCacheSummary) : spacesCacheStatus :=
  { Local := c.Local
    Remote := c.Remote
    Status := c.Status
    Source := c.Source
    TimeSaved := c.TimeSaved }

/-- `newSpacesTaskPayload` (spaces.go 287-304). -/
def newSpacesTaskPayload (taskSummary : TaskSummary) : spacesTask :=
  { Key := taskSummary.TaskID
    Name := taskSummary.Task
    Workspace := taskSummary.Package
    Hash := taskSummary.Hash
    StartTime := taskSummary.Execution.startAt
    EndTime := taskSummary.Execution.endTime
    Cache := spacesCacheStatusOf taskSummary.CacheSummary
    ExitCode := taskSummary.Execution.exitCode
    Dependencies := taskSummary.Dependencies
    Dependents := taskSummary.Dependents
    Logs := taskSummary.Logs }

/-! ## Requests and the client's mutable state (spaces.go lines 17-44) -/

/-- `spaceRun` (spaces.go 40-44): the run handle.  The `created`
channel of the source is not data but a synchronization primitive; it
is modelled by the `createdClosed` flag of the scheduler state below. -/
structure spaceRun where
  ID : String
  URL : String

/-- The client's mutable shared state: the run handle `c.run` and the
error list `c.errors` (spaces.go 30-38). -/
structure ClientState where
  run : spaceRun
  errors : List String

/-- Raw response bytes of a transport call, as far as the dispatcher
inspects them: `json.Unmarshal(response, c.run)` either yields an
object populating the run handle or fails.  `runJSON id url` stands
for a well-formed body, `malformed msg` for bytes on which
`json.Unmarshal` fails with message `msg`. -/
inductive Resp where
  | runJSON (id url : String)
  | malformed (msg : String)

/-- The serializable request bodies the dispatcher enqueues
(`req.body` is `interface{}` in Go; only these two payload types are
ever stored in it). -/
inductive spacesBody where
  | runBody (p : spacesRunPayload)
  | taskBody (t : spacesTask)

/-- `spaceRequest` (spaces.go 17-24).  The Go `makeURL` closure
receives `self` only to write the resolved URL into `self.url`; it is
modelled as a function returning the URL (or the error).  `onDone`
closures capture the client, so they are modelled as transformers of
`ClientState`. -/
structure spaceRequest where
  method : String
  url : String := ""
  makeURL : Option (spaceRun → Except String String) := none
  body : spacesBody
  onDone : Option (Option Resp → ClientState → ClientState) := none

/-- `(req *spaceRequest).error(msg)` (spaces.go 26-28):
`fmt.Errorf("[%s] %s: %s", req.method, req.url, msg)`. -/
def spaceRequest.errorMsg (req : spaceRequest) (msg : String) : String :=
  "[" ++ req.method ++ "] " ++ req.url ++ ": " ++ msg

/-- The external collaborators of the client, plus the construction
metadata: `c.rsm`, `c.api.IsLinked()`, `json.Marshal`,
`c.api.JSONPost`, `c.api.JSONPatch`.  The transport calls return
(response bytes, error), either of which may be absent. -/
structure ApiEnv where
  rsm : Meta
  isLinked : Bool
  marshal : spacesBody → Except String String
  jsonPost : String → String → Option Resp × Option String
  jsonPatch : String → String → Option Resp × Option String

/-- The endpoint constants (spaces.go 13-15), applied with
`fmt.Sprintf`. -/
def runsEndpointFor (space : String) : String :=
  "/v0/spaces/" ++ space ++ "/runs"

/-- `fmt.Sprintf(runsPatchEndpoint, space, run)`. -/
def runsPatchEndpointFor (space runID : String) : String :=
  "/v0/spaces/" ++ space ++ "/runs/" ++ runID

/-- `fmt.Sprintf(tasksEndpoint, space, run)`. -/
def tasksEndpointFor (space runID : String) : String :=
  "/v0/spaces/" ++ space ++ "/runs/" ++ runID ++ "/tasks"

/-- The tail of `makeRequest` after URL resolution (spaces.go
106-148): precondition checks, body serialization, transport dispatch,
completion callback.  The source's final `else` branch ("Unsupported
request method") is unreachable because of the method check at lines
117-120, which this model performs identically; the dispatch is
therefore a two-way split. -/
def makeRequestResolved (env : ApiEnv) (st : ClientState) (req : spaceRequest) :
    ClientState :=
  if env.rsm.spaceID = "" then
    { st with errors := st.errors ++ [req.errorMsg "No spaceID found"] }
  else if env.isLinked = false then
    { st with errors := st.errors ++
        [req.errorMsg "Repo is not linked to a Space. Run `turbo link --target=spaces` first"] }
  else if req.method ≠ "POST" ∧ req.method ≠ "PATCH" then
    { st with errors := st.errors ++
        [req.errorMsg ("Unsupported method " ++ req.method)] }
  else
    match env.marshal req.body with
    | Except.error e =>
        { st with errors := st.errors ++
            [req.errorMsg ("Failed to create payload: " ++ e)] }
    | Except.ok payload =>
        match
          (if req.method = "POST" then env.jsonPost req.url payload
           else env.jsonPatch req.url payload) with
        | (_, some e) => { st with errors := st.errors ++ [req.errorMsg e] }
        | (resp, none) =>
            match req.onDone with
            | some f => f resp st
            | none => st

/-- `makeRequest` (spaces.go 89-148): lazy URL resolution first (a
failure is appended to the error list and processing of the
descriptor stops), then the resolved tail. -/
def makeRequest (env : ApiEnv) (st : ClientState) (req : spaceRequest) :
    ClientState :=
  match req.makeURL with
  | none => makeRequestResolved env st req
  | some mk =>
      match mk st.run with
      | Except.error e => { st with errors := st.errors ++ [e] }
      | Except.ok u => makeRequestResolved env st { req with url := u }

/-- Sequential drain of a list of descriptors by `makeRequest`: the
worker-loop body applied to each request in turn. -/
def processAll (env : ApiEnv) : ClientState → List spaceRequest → ClientState
  | st, [] => st
  | st, req :: reqs => processAll env (makeRequest env st req) reqs

/-! ## The three request builders (spaces.go lines 150-199) -/

/-- `json.Unmarshal(response, c.run)` in the `startRun` callback:
a well-formed body overwrites the handle's `ID` and `URL`; malformed
bytes fail with `Error unmarshaling response: <msg>`. -/
def unmarshalRun (resp : Resp) (run : spaceRun) : Except String spaceRun :=
  match resp with
  | Resp.runJSON i u => Except.ok { run with ID := i, URL := u }
  | Resp.malformed msg => Except.error ("Error unmarshaling response: " ++ msg)

/-- The `onDone` closure of `startRun` (spaces.go 158-166): a nil
response returns immediately; otherwise the response is unmarshalled
into the run handle, and an unmarshal failure is appended to the
error list. -/
def startRunOnDone (resp : Option Resp) (st : ClientState) : ClientState :=
  match resp with
  | none => st
  | some r =>
      match unmarshalRun r st.run with
      | Except.ok run' => { st with run := run' }
      | Except.error e => { st with errors := st.errors ++ [e] }

/-- The descriptor `startRun` enqueues (spaces.go 151-167): a POST to
the fixed create-run URL with the run-create payload and the
populate-the-handle callback. -/
def startRunRequest (m : Meta) : spaceRequest :=
  { method := "POST"
    url := runsEndpointFor m.spaceID
    body := spacesBody.runBody (newSpacesRunCreatePayload m)
    onDone := some startRunOnDone }

/-- The descriptor `postTask` enqueues (spaces.go 174-184): lazy URL
resolution against the run handle, failing with the missing-run-id
error while `run.ID` is empty. -/
def postTaskRequest (m : Meta) (task : TaskSummary) : spaceRequest :=
  { method := "POST"
    makeURL := some fun run =>
      if run.ID = "" then
        Except.error ("No Run ID found to post task " ++ task.TaskID)
      else
        Except.ok (tasksEndpointFor m.spaceID run.ID)
    body := spacesBody.taskBody (newSpacesTaskPayload task) }

/-- The descriptor `finishRun` enqueues (spaces.go 188-198). -/
def finishRunRequest (m : Meta) : spaceRequest :=
  { method := "PATCH"
    makeURL := some fun run =>
      if run.ID = "" then
        Except.error "No Run ID found to send PATCH request"
      else
        Except.ok (runsPatchEndpointFor m.spaceID run.ID)
    body := spacesBody.runBody (newSpacesDonePayload m.RunSummary) }

/-! ## Outcome view of one descriptor's processing

`runSteps` replays the steps of `makeRequest` up to (but excluding)
the completion callback and reports either the single error message
the failing step records, or the resolved request together with the
response bytes of the successful transport call.  It is proven equal
to `makeRequest` below; it exists to let theorems talk about "the
first failing step" and "the callback is invoked". -/

/-- Steps of `makeRequest` after URL resolution, as an outcome. -/
def runStepsResolved (env : ApiEnv) (req : spaceRequest) :
    Except String (spaceRequest × Option Resp) :=
  if env.rsm.spaceID = "" then
    Except.error (req.errorMsg "No spaceID found")
  else if env.isLinked = false then
    Except.error
      (req.errorMsg "Repo is not linked to a Space. Run `turbo link --target=spaces` first")
  else if req.method ≠ "POST" ∧ req.method ≠ "PATCH" then
    Except.error (req.errorMsg ("Unsupported method " ++ req.method))
  else
    match env.marshal req.body with
    | Except.error e =>
        Except.error (req.errorMsg ("Failed to create payload: " ++ e))
    | Except.ok payload =>
        match
          (if req.method = "POST" then env.jsonPost req.url payload
           else env.jsonPatch req.url payload) with
        | (_, some e) => Except.error (req.errorMsg e)
        | (resp, none) => Except.ok (req, resp)

/-- All steps of `makeRequest` up to the completion callback. -/
def runSteps (env : ApiEnv) (run : spaceRun) (req : spaceRequest) :
    Except String (spaceRequest × Option Resp) :=
  match req.makeURL with
  | none => runStepsResolved env req
  | some mk =>
      match mk run with
      | Except.error e => Except.error e
      | Except.ok u => runStepsResolved env { req with url := u }

/-! ## The worker pool as a transition system (spaces.go lines 46-205)

`newSpacesClient` starts `processors = 8` goroutines that range over
the `c.requests` channel; a mutex-guarded boolean `firstReqDone`
gates the very first dequeued request, and the worker that flips it
closes `c.run.created` after processing its request.  The orchestrator
is the single client goroutine calling `startRun` / `postTask` /
`finishRun` / `Close` in program order.

Granularity of the model: the mutex of the source is held exactly
around the check-and-flip of `firstReqDone`, so that region is one
atomic step (`checkGate` / `checkNoGate`); a worker's `makeRequest`
call together with the subsequent `close(c.run.created)` of the
gate-opener is one atomic step on the shared state (the finer-grained
interleaving of the error-list appends inside `makeRequest` is studied
separately by `raceStep` below).  The channel is modelled as a FIFO
buffer with a closed flag.

Ghost fields (`gateOpener`, `gateReq`, `firstDeq`, `startReturned`)
record history for the statements of the theorems; no step reads them
to decide enabledness. -/

/-- `processors := 8` (spaces.go 66). -/
def processors : Nat := 8

/-- One worker goroutine's position in its loop body. -/
inductive WStat where
  | idle
  | gotReq (req : spaceRequest)
  | processingGate (req : spaceRequest)
  | processingNormal (req : spaceRequest)
  | stopped

/-- One orchestrator operation, in the order the program issues them. -/
inductive COp where
  | startRun
  | postTask (task : TaskSummary)
  | finishRun
  | closeOp

/-- The orchestrator goroutine's position. -/
inductive ClientPhase where
  | running (ops : List COp)
  | waitingCreated (ops : List COp)
  | waitingClose
  | finished

/-- Global state: orchestrator, channel, gate flag, `created` signal,
shared client state, the worker pool, and the ghost history fields. -/
structure SysState where
  phase : ClientPhase
  buf : List spaceRequest
  chanClosed : Bool
  firstReqDone : Bool
  createdClosed : Bool
  shared : ClientState
  workers : List WStat
  gateOpener : Option Nat
  gateReq : Option spaceRequest
  firstDeq : Option Nat
  startReturned : Bool

/-- Initial state of `newSpacesClient` (spaces.go 46-87) with the
orchestrator about to run `prog`: empty channel, unset flag and
signal, an empty run handle and error list, all workers idle. -/
def initState (prog : List COp) : SysState :=
  { phase := ClientPhase.running prog
    buf := []
    chanClosed := false
    firstReqDone := false
    createdClosed := false
    shared := { run := { ID := "", URL := "" }, errors := [] }
    workers := List.replicate processors WStat.idle
    gateOpener := none
    gateReq := none
    firstDeq := none
    startReturned := false }

/-- The interleaving semantics.  Worker steps: dequeue, leave the loop
on a closed drained channel, the mutex-guarded flag check (flipping it
or not), and the two processing completions (the gate-opener's one
also closes `created`).  Client steps: `startRun` enqueues then
blocks, waking only once `created` is closed; `postTask` and
`finishRun` enqueue and continue; `Close` closes the channel and waits
for all workers to stop. -/
inductive Step (env : ApiEnv) : SysState → SysState → Prop
  | startRunStep (s : SysState) (rest : List COp) :
      s.phase = ClientPhase.running (COp.startRun :: rest) →
      Step env s { s with
        phase := ClientPhase.waitingCreated rest
        buf := s.buf ++ [startRunRequest env.rsm] }
  | wakeStep (s : SysState) (rest : List COp) :
      s.phase = ClientPhase.waitingCreated rest →
      s.createdClosed = true →
      Step env s { s with
        phase := ClientPhase.running rest
        startReturned := true }
  | postTaskStep (s : SysState) (task : TaskSummary) (rest : List COp) :
      s.phase = ClientPhase.running (COp.postTask task :: rest) →
      Step env s { s with
        phase := ClientPhase.running rest
        buf := s.buf ++ [postTaskRequest env.rsm task] }
  | finishRunStep (s : SysState) (rest : List COp) :
      s.phase = ClientPhase.running (COp.finishRun :: rest) →
      Step env s { s with
        phase := ClientPhase.running rest
        buf := s.buf ++ [finishRunRequest env.rsm] }
  | closeStep (s : SysState) (rest : List COp) :
      s.phase = ClientPhase.running (COp.closeOp :: rest) →
      Step env s { s with
        phase := ClientPhase.waitingClose
        chanClosed := true }
  | closeDoneStep (s : SysState) :
      s.phase = ClientPhase.waitingClose →
      (∀ w ∈ s.workers, w = WStat.stopped) →
      Step env s { s with phase := ClientPhase.finished }
  | dequeueStep (s : SysState) (i : Nat) (req : spaceRequest)
      (rest : List spaceRequest) :
      s.workers[i]? = some WStat.idle →
      s.buf = req :: rest →
      Step env s { s with
        workers := s.workers.set i (WStat.gotReq req)
        buf := rest
        firstDeq := if s.firstDeq = none then some i else s.firstDeq }
  | exitStep (s : SysState) (i : Nat) :
      s.workers[i]? = some WStat.idle →
      s.buf = [] →
      s.chanClosed = true →
      Step env s { s with workers := s.workers.set i WStat.stopped }
  | checkGateStep (s : SysState) (i : Nat) (req : spaceRequest) :
      s.workers[i]? = some (WStat.gotReq req) →
      s.firstReqDone = false →
      Step env s { s with
        firstReqDone := true
        workers := s.workers.set i (WStat.processingGate req)
        gateOpener := some i
        gateReq := some req }
  | checkNoGateStep (s : SysState) (i : Nat) (req : spaceRequest) :
      s.workers[i]? = some (WStat.gotReq req) →
      s.firstReqDone = true →
      Step env s { s with
        workers := s.workers.set i (WStat.processingNormal req) }
  | finishGateStep (s : SysState) (i : Nat) (req : spaceRequest) :
      s.workers[i]? = some (WStat.processingGate req) →
      Step env s { s with
        shared := makeRequest env s.shared req
        createdClosed := true
        workers := s.workers.set i WStat.idle }
  | finishNormalStep (s : SysState) (i : Nat) (req : spaceRequest) :
      s.workers[i]? = some (WStat.processingNormal req) →
      Step env s { s with
        shared := makeRequest env s.shared req
        workers := s.workers.set i WStat.idle }

/-- Reachability from the freshly constructed client about to run
`prog`. -/
def Reachable (env : ApiEnv) (prog : List COp) (s : SysState) : Prop :=
  Relation.ReflTransGen (Step env) (initState prog) s

/-! ## Invariant material for the gating argument -/

/-- All workers of the pool are idle. -/
def allIdle (ws : List WStat) : Prop := ∀ w ∈ ws, w = WStat.idle

/-- Worker `j` is in state `st` and every other worker is idle. -/
def soleHolder (ws : List WStat) (j : Nat) (st : WStat) : Prop :=
  ws[j]? = some st ∧ ∀ k w, k ≠ j → ws[k]? = some w → w = WStat.idle

/-- Pre-`created` snapshot: the orchestrator has not called
`startRun` yet. -/
def PhaseA (rest : List COp) (s : SysState) : Prop :=
  s.phase = ClientPhase.running (COp.startRun :: rest) ∧ s.buf = [] ∧
    allIdle s.workers ∧ s.firstReqDone = false ∧ s.firstDeq = none ∧
    s.gateReq = none ∧ s.gateOpener = none

/-- Pre-`created` snapshot: the create-run descriptor sits in the
channel, nobody dequeued it yet. -/
def PhaseB (env : ApiEnv) (rest : List COp) (s : SysState) : Prop :=
  s.phase = ClientPhase.waitingCreated rest ∧
    s.buf = [startRunRequest env.rsm] ∧ allIdle s.workers ∧
    s.firstReqDone = false ∧ s.firstDeq = none ∧
    s.gateReq = none ∧ s.gateOpener = none

/-- Pre-`created` snapshot: one worker dequeued the create-run
descriptor but has not reached the flag check. -/
def PhaseC (env : ApiEnv) (rest : List COp) (s : SysState) : Prop :=
  s.phase = ClientPhase.waitingCreated rest ∧ s.buf = [] ∧
    (∃ j, soleHolder s.workers j (WStat.gotReq (startRunRequest env.rsm)) ∧
      s.firstDeq = some j) ∧
    s.firstReqDone = false ∧ s.gateReq = none ∧ s.gateOpener = none

/-- Pre-`created` snapshot: the dequeuing worker flipped the flag and
is processing the create-run descriptor under the gate. -/
def PhaseD (env : ApiEnv) (rest : List COp) (s : SysState) : Prop :=
  s.phase = ClientPhase.waitingCreated rest ∧ s.buf = [] ∧
    (∃ j, soleHolder s.workers j (WStat.processingGate (startRunRequest env.rsm)) ∧
      s.firstDeq = some j ∧ s.gateOpener = some j) ∧
    s.firstReqDone = true ∧ s.gateReq = some (startRunRequest env.rsm)

/-- The inductive invariant of the system under the documented caller
contract (the program starts with `startRun`): before `created` is
closed the system is in one of the four snapshots above; once it is
closed, the gate was opened by the worker that performed the very
first dequeue, on the create-run descriptor; the channel is closed
exactly when the orchestrator has executed `Close`; `startRun` has
returned only if `created` is closed. -/
def Inv (env : ApiEnv) (rest : List COp) (s : SysState) : Prop :=
  (s.createdClosed = false →
    PhaseA rest s ∨ PhaseB env rest s ∨ PhaseC env rest s ∨ PhaseD env rest s) ∧
  (s.createdClosed = true →
    s.firstReqDone = true ∧ s.gateReq = some (startRunRequest env.rsm) ∧
      ∃ j, s.gateOpener = some j ∧ s.firstDeq = some j) ∧
  (s.chanClosed = true ↔
    (s.phase = ClientPhase.waitingClose ∨ s.phase = ClientPhase.finished)) ∧
  (s.startReturned = true → s.createdClosed = true) ∧
  s.workers.length = processors

/-! ## The error-list append, at memory granularity (spaces.go 101,
107, 112, 118, 124, 136, 140, 164)

Every error recording in the source is the statement
`c.errors = append(c.errors, err)`, executed by the 8 worker
goroutines with no synchronization: the only mutex in the file
(spaces.go 64) is held exclusively around the `firstReqDone` check in
the worker loop and is released before `makeRequest` runs.  The
statement is a read of the shared slice header followed by a write of
the grown slice, and two goroutines may interleave between read and
write.  `raceStep` embeds exactly that: two workers each executing one
append of their own error message. -/

/-- Position of one worker inside `c.errors = append(c.errors, err)`:
before the statement, after reading the current slice (the snapshot),
or after writing the result back. -/
inductive appendPC where
  | willAppend (e : String)
  | loaded (e : String) (snap : List String)
  | done

/-- Shared error list plus the two appending workers. -/
structure RaceState where
  errors : List String
  w1 : appendPC
  w2 : appendPC

/-- Interleaving semantics of the two unsynchronized appends: each
worker first reads `c.errors`, then writes back its snapshot grown by
its own error. -/
inductive raceStep : RaceState → RaceState → Prop
  | load1 (s : RaceState) (e : String) :
      s.w1 = appendPC.willAppend e →
      raceStep s { s with w1 := appendPC.loaded e s.errors }
  | store1 (s : RaceState) (e : String) (snap : List String) :
      s.w1 = appendPC.loaded e snap →
      raceStep s { s with errors := snap ++ [e], w1 := appendPC.done }
  | load2 (s : RaceState) (e : String) :
      s.w2 = appendPC.willAppend e →
      raceStep s { s with w2 := appendPC.loaded e s.errors }
  | store2 (s : RaceState) (e : String) (snap : List String) :
      s.w2 = appendPC.loaded e snap →
      raceStep s { s with errors := snap ++ [e], w2 := appendPC.done }

/-- Two workers about to record one error each onto an empty list:
the situation of two `postTask` descriptors failing URL resolution
after a failed create-run call. -/
def raceInit : RaceState :=
  { errors := []
    w1 := appendPC.willAppend "No Run ID found to post task app#build"
    w2 := appendPC.willAppend "No Run ID found to post task web#build" }

/-! ## Go channel-close semantics for `Close` (spaces.go 202-205) -/

/-- The `c.requests` channel as far as `Close` manipulates it. -/
structure requestsChan where
  closed : Bool

/-- Go's `close` builtin: closing an already-closed channel panics
(Go language specification); the panic is modelled as `Except.error`. -/
def goChanClose (c : requestsChan) : Except String requestsChan :=
  if c.closed then Except.error "close of closed channel"
  else Except.ok { closed := true }

/-- `Close` (spaces.go 202-205) runs `close(c.requests)`
unconditionally, then `c.wg.Wait()`; the channel effect is
`goChanClose`, the wait is the drain modelled by the transition
system. -/
def spacesClose (c : requestsChan) : Except String requestsChan :=
  goChanClose c

/-! ## Concrete inputs used by the witnesses -/

/-- A concrete run summary: exit code 1, distinct timestamps. -/
def rs0 : RunSummary :=
  { ExecutionSummary := { startedAt := 100, endedAt := 200, exitCode := 1 }
    SCM := { Branch := "main", Sha := "deadbeef" }
    User := "dev"
    TurboVersion := "1.8.0" }

/-- Concrete construction metadata with a configured space. -/
def m0 : Meta :=
  { spaceID := "myspace"
    synthesizedCommand := "turbo run build"
    repoPath := "/repo"
    ciConstant := ""
    RunSummary := rs0 }

/-- Environment whose transport always fails: the failed create-run
scenario. -/
def envFail : ApiEnv :=
  { rsm := m0
    isLinked := true
    marshal := fun _ => Except.ok "body"
    jsonPost := fun _ _ => (none, some "network down")
    jsonPatch := fun _ _ => (none, some "network down") }

/-- Environment whose transport reports success but returns nil
response bytes. -/
def envNilResp : ApiEnv :=
  { rsm := m0
    isLinked := true
    marshal := fun _ => Except.ok "body"
    jsonPost := fun _ _ => (none, none)
    jsonPatch := fun _ _ => (none, none) }

/-- A concrete task summary matching the scenario of the task-payload
property: hash `abc123`, package `web`, task `build`, exit code 0,
cache `{local: true, status: HIT, timeSaved: 42}`. -/
def task0 : TaskSummary :=
  { TaskID := "web#build"
    Task := "build"
    Package := "web"
    Hash := "abc123"
    Execution := { startAt := 10, endTime := 20, exitCode := 0 }
    Dependencies := []
    Dependents := []
    Logs := "build ok"
    CacheSummary :=
      { Local := true, Remote := false, Status := "HIT", Source := "", TimeSaved := 42 } }

/-- A client state with an empty run handle and no recorded errors. -/
def emptyClientState : ClientState :=
  { run := { ID := "", URL := "" }, errors := [] }

/-! # Theorems -/

/-! ## Helper lemmas about the processing of one descriptor -/

/-- `makeRequestResolved` agrees with the outcome view
`runStepsResolved`: a failing step records its single error message,
and only a successful transport call reaches the callback. -/
theorem makeRequestResolved_eq_outcome (env : ApiEnv) (st : ClientState)
    (req : spaceRequest) :
    makeRequestResolved env st req =
      (match runStepsResolved env req with
        | Except.error e => { st with errors := st.errors ++ [e] }
        | Except.ok (r, resp) =>
            match r.onDone with
            | some f => f resp st
            | none => st) := by
  unfold makeRequestResolved runStepsResolved
  split_ifs with h1 h2 h3 h4
  · rfl
  · rfl
  · rfl
  · cases hm : env.marshal req.body with
    | error e => rfl
    | ok payload =>
        rcases hpr : env.jsonPost req.url payload with ⟨resp, reqErr⟩
        cases reqErr <;> cases hod : req.onDone <;> simp [hpr, hod]
  · cases hm : env.marshal req.body with
    | error e => rfl
    | ok payload =>
        rcases hpr : env.jsonPatch req.url payload with ⟨resp, reqErr⟩
        cases reqErr <;> cases hod : req.onDone <;> simp [hpr, hod]

/-- `makeRequest` agrees with the outcome view `runSteps`. -/
theorem makeRequest_eq_outcome (env : ApiEnv) (st : ClientState)
    (req : spaceRequest) :
    makeRequest env st req =
      (match runSteps env st.run req with
        | Except.error e => { st with errors := st.errors ++ [e] }
        | Except.ok (r, resp) =>
            match r.onDone with
            | some f => f resp st
            | none => st) := by
  unfold makeRequest runSteps
  cases hmk : req.makeURL with
  | none => exact makeRequestResolved_eq_outcome env st req
  | some mk =>
      cases hres : mk st.run with
      | error e => simp [hres]
      | ok u =>
          simp only [hres]
          exact makeRequestResolved_eq_outcome env st
            { req with url := u, makeURL := some mk }

/-- Processing a `postTask` descriptor while the run handle is empty
records exactly the missing-run-id error and leaves the handle
untouched. -/
theorem postTask_noRunId (env : ApiEnv) (st : ClientState) (task : TaskSummary)
    (h : st.run.ID = "") :
    makeRequest env st (postTaskRequest env.rsm task) =
      { st with errors := st.errors ++
          ["No Run ID found to post task " ++ task.TaskID] } := by
  unfold makeRequest postTaskRequest
  simp [h]

/-- Processing a `finishRun` descriptor while the run handle is empty
records exactly the missing-run-id error and leaves the handle
untouched. -/
theorem finishRun_noRunId (env : ApiEnv) (st : ClientState)
    (h : st.run.ID = "") :
    makeRequest env st (finishRunRequest env.rsm) =
      { st with errors := st.errors ++
          ["No Run ID found to send PATCH request"] } := by
  unfold makeRequest finishRunRequest
  simp [h]

/-- Batch form: draining any queue of `postTask`/`finishRun`
descriptors against an empty run handle appends exactly one error per
descriptor and never changes the run handle. -/
theorem processAll_noRunId (env : ApiEnv) (ds : List spaceRequest) :
    ∀ st : ClientState, st.run.ID = "" →
    (∀ d ∈ ds, (∃ t, d = postTaskRequest env.rsm t) ∨ d = finishRunRequest env.rsm) →
    (processAll env st ds).errors.length = st.errors.length + ds.length ∧
      (processAll env st ds).run = st.run := by
  induction ds with
  | nil => intro st _ _; simp [processAll]
  | cons d ds ih =>
      intro st hID hds
      have hd := hds d (List.mem_cons_self d ds)
      have hrest : ∀ d' ∈ ds,
          (∃ t, d' = postTaskRequest env.rsm t) ∨ d' = finishRunRequest env.rsm :=
        fun d' hd' => hds d' (List.mem_cons_of_mem d hd')
      have hstep : (makeRequest env st d).errors.length = st.errors.length + 1 ∧
          (makeRequest env st d).run = st.run := by
        rcases hd with ⟨t, rfl⟩ | rfl
        · rw [postTask_noRunId env st t hID]; simp
        · rw [finishRun_noRunId env st hID]; simp
      have hID' : (makeRequest env st d).run.ID = "" := by
        rw [hstep.2]; exact hID
      have := ih (makeRequest env st d) hID' hrest
      refine ⟨?_, ?_⟩
      · rw [show processAll env st (d :: ds) = processAll env (makeRequest env st d) ds from rfl,
          this.1, hstep.1, List.length_cons]
        omega
      · rw [show processAll env st (d :: ds) = processAll env (makeRequest env st d) ds from rfl,
          this.2, hstep.2]

/-- The keys of a task payload's JSON object: `local` and `remote`
never occur (they are tagged `json:"-"`). -/
theorem spacesTask_jsonFields_no_raw_booleans (t : spacesTask) :
    ∀ kv ∈ t.jsonFields, kv.1 ≠ "local" ∧ kv.1 ≠ "remote" := by
  intro kv hkv
  unfold spacesTask.jsonFields at hkv
  simp only [List.mem_append, or_assoc] at hkv
  obtain h | h | h | h | h | h | h | h | h | h | h := hkv <;>
    try split at h
  all_goals simp_all

/-- Splitting membership in the full key set of a JSON object: such a
key is a top-level key of the object or a key occurring inside one of
its values. -/
theorem mem_allKeys_jobj {fields : List (String × JValue)} {k : String}
    (h : k ∈ (JValue.jobj fields).allKeys) :
    (∃ kv ∈ fields, k = kv.1) ∨ ∃ kv ∈ fields, k ∈ kv.2.allKeys := by
  induction fields with
  | nil => simp [JValue.allKeys] at h
  | cons kv fields ih =>
      obtain ⟨k1, v1⟩ := kv
      simp only [JValue.allKeys, List.mem_cons, List.mem_append] at h
      rcases h with h1 | h | h
      · exact Or.inl ⟨(k1, v1), List.mem_cons_self (k1, v1) fields, h1⟩
      · exact Or.inr ⟨(k1, v1), List.mem_cons_self (k1, v1) fields, h⟩
      · rcases ih h with ⟨kv', hm, hk⟩ | ⟨kv', hm, hk⟩
        · exact Or.inl ⟨kv', List.mem_cons_of_mem (k1, v1) hm, hk⟩
        · exact Or.inr ⟨kv', List.mem_cons_of_mem (k1, v1) hm, hk⟩

/-- A JSON array of strings contributes no keys. -/
theorem allKeys_jarr_map_jstr (l : List String) :
    (JValue.jarr (l.map JValue.jstr)).allKeys = [] := by
  induction l with
  | nil => simp [JValue.allKeys]
  | cons x xs ih => simp [JValue.allKeys, ih]

/-- The nested cache object of the task JSON: none of its keys is
`local` or `remote` (both carry tag `json:"-"`), and its values —
strings and numbers — contain no further keys. -/
theorem spacesCacheStatus_jsonFields_keys (c : spacesCacheStatus) :
    ∀ kv ∈ c.jsonFields,
      (kv.1 ≠ "local" ∧ kv.1 ≠ "remote") ∧ kv.2.allKeys = [] := by
  intro kv hkv
  unfold spacesCacheStatus.jsonFields at hkv
  simp only [List.mem_append, or_assoc] at hkv
  obtain h | h | h := hkv <;> try split at h
  all_goals simp_all [JValue.allKeys]

/-- Each top-level value of the task JSON is either the nested cache
object or a value without any keys. -/
theorem spacesTask_jsonFields_values (t : spacesTask) :
    ∀ kv ∈ t.jsonFields,
      kv.2 = JValue.jobj t.Cache.jsonFields ∨ kv.2.allKeys = [] := by
  intro kv hkv
  unfold spacesTask.jsonFields at hkv
  simp only [List.mem_append, or_assoc] at hkv
  obtain h | h | h | h | h | h | h | h | h | h | h := hkv <;> try split at h
  all_goals simp_all [JValue.allKeys, allKeys_jarr_map_jstr]

/-- No `local` or `remote` key occurs anywhere in the emitted task
JSON: not at the top level and not inside the nested `cache` object
(nor in any other value, none of which carries keys). -/
theorem spacesTask_json_no_raw_booleans_anywhere (t : spacesTask) :
    ∀ k ∈ (JValue.jobj t.jsonFields).allKeys, k ≠ "local" ∧ k ≠ "remote" := by
  intro k hk
  rcases mem_allKeys_jobj hk with ⟨kv, hm, rfl⟩ | ⟨kv, hm, hk2⟩
  · exact spacesTask_jsonFields_no_raw_booleans t kv hm
  · rcases spacesTask_jsonFields_values t kv hm with hcache | hnone
    · rw [hcache] at hk2
      rcases mem_allKeys_jobj hk2 with ⟨kv', hm', rfl⟩ | ⟨kv', hm', hk3⟩
      · exact (spacesCacheStatus_jsonFields_keys _ kv' hm').1
      · rw [(spacesCacheStatus_jsonFields_keys _ kv' hm').2] at hk3
        simp at hk3
    · rw [hnone] at hk2
      simp at hk2

/-- The nested cache object is really the one emitted: the task JSON
contains the entry `("cache", jobj t.Cache.jsonFields)` at top level. -/
theorem spacesTask_jsonFields_cache_mem (t : spacesTask) :
    ("cache", JValue.jobj t.Cache.jsonFields) ∈ t.jsonFields := by
  unfold spacesTask.jsonFields
  simp [List.mem_append]

/-- The keys of a run payload's JSON object never include
`startTime` when the payload's `StartTime` is the zero value. -/
theorem spacesRunPayload_jsonFields_no_startTime (p : spacesRunPayload)
    (h : p.StartTime = 0) :
    ∀ kv ∈ p.jsonFields, kv.1 ≠ "startTime" := by
  intro kv hkv
  unfold spacesRunPayload.jsonFields at hkv
  rw [h] at hkv
  simp only [List.mem_append, or_assoc] at hkv
  obtain h | h | h | h | h | h | h | h | h | h | h | h := hkv <;>
    try split at h
  all_goals simp_all

/-! ## Helper lemmas for the transition system -/

/-- A lookup in an all-idle pool yields idle. -/
theorem allIdle_get {ws : List WStat} (h : allIdle ws) {k : Nat} {w : WStat}
    (hk : ws[k]? = some w) : w = WStat.idle :=
  h w (List.mem_iff_getElem?.2 ⟨k, hk⟩)

/-- Setting an existing index is observable at that index. -/
theorem getElem?_set_self_of_some {α : Type} {l : List α} {i : Nat} {a b : α}
    (h : l[i]? = some a) : (l.set i b)[i]? = some b :=
  List.getElem?_set_self (List.getElem?_eq_some_iff.1 h).1

/-- The invariant holds initially. -/
theorem inv_init (env : ApiEnv) (rest : List COp) :
    Inv env rest (initState (COp.startRun :: rest)) := by
  refine ⟨fun _ => Or.inl ⟨rfl, rfl, ?_, rfl, rfl, rfl, rfl⟩, ?_, ?_, ?_, ?_⟩
  · intro w hw
    exact List.eq_of_mem_replicate hw
  · intro hcc
    simp [initState] at hcc
  · constructor
    · intro hcc; simp [initState] at hcc
    · rintro (h | h) <;> simp [initState] at h
  · intro hsr; simp [initState] at hsr
  · simp [initState]

/-- One-step preservation of the invariant. -/
theorem inv_preserved (env : ApiEnv) (rest : List COp) {s s' : SysState}
    (hs : Inv env rest s) (hstep : Step env s s') : Inv env rest s' := by
  obtain ⟨hQ, hC, hR, hSR, hlen⟩ := hs
  cases hstep with
  | startRunStep rest' hphase =>
      refine ⟨?_, hC, ?_, hSR, hlen⟩
      · intro h0
        rcases hQ h0 with hA | hB | hCc | hD
        · obtain ⟨hph, hbuf, hidle, hflag, hfd, hgr, hgo⟩ := hA
          have hr : rest' = rest := by
            have h1 := hphase.symm.trans hph
            simpa using h1
          subst hr
          exact Or.inr (Or.inl ⟨rfl, by simp [hbuf], hidle, hflag, hfd, hgr, hgo⟩)
        · have h1 := hB.1; rw [hphase] at h1; simp at h1
        · have h1 := hCc.1; rw [hphase] at h1; simp at h1
        · have h1 := hD.1; rw [hphase] at h1; simp at h1
      · constructor
        · intro hcc
          rcases hR.1 hcc with h | h <;> rw [hphase] at h <;> simp at h
        · rintro (h | h) <;> simp at h
  | wakeStep rest' hphase hcc =>
      refine ⟨?_, hC, ?_, fun _ => hcc, hlen⟩
      · intro h0; rw [hcc] at h0; simp at h0
      · constructor
        · intro hc
          rcases hR.1 hc with h | h <;> rw [hphase] at h <;> simp at h
        · rintro (h | h) <;> simp at h
  | postTaskStep task rest' hphase =>
      refine ⟨?_, hC, ?_, hSR, hlen⟩
      · intro h0
        rcases hQ h0 with hA | hB | hCc | hD
        · have h1 := hphase.symm.trans hA.1; simp at h1
        · have h1 := hB.1; rw [hphase] at h1; simp at h1
        · have h1 := hCc.1; rw [hphase] at h1; simp at h1
        · have h1 := hD.1; rw [hphase] at h1; simp at h1
      · constructor
        · intro hc
          rcases hR.1 hc with h | h <;> rw [hphase] at h <;> simp at h
        · rintro (h | h) <;> simp at h
  | finishRunStep rest' hphase =>
      refine ⟨?_, hC, ?_, hSR, hlen⟩
      · intro h0
        rcases hQ h0 with hA | hB | hCc | hD
        · have h1 := hphase.symm.trans hA.1; simp at h1
        · have h1 := hB.1; rw [hphase] at h1; simp at h1
        · have h1 := hCc.1; rw [hphase] at h1; simp at h1
        · have h1 := hD.1; rw [hphase] at h1; simp at h1
      · constructor
        · intro hc
          rcases hR.1 hc with h | h <;> rw [hphase] at h <;> simp at h
        · rintro (h | h) <;> simp at h
  | closeStep rest' hphase =>
      refine ⟨?_, hC, ?_, hSR, hlen⟩
      · intro h0
        rcases hQ h0 with hA | hB | hCc | hD
        · have h1 := hphase.symm.trans hA.1; simp at h1
        · have h1 := hB.1; rw [hphase] at h1; simp at h1
        · have h1 := hCc.1; rw [hphase] at h1; simp at h1
        · have h1 := hD.1; rw [hphase] at h1; simp at h1
      · exact ⟨fun _ => Or.inl rfl, fun _ => rfl⟩
  | closeDoneStep hphase hstopped =>
      refine ⟨?_, hC, ?_, hSR, hlen⟩
      · intro h0
        rcases hQ h0 with hA | hB | hCc | hD
        · have h1 := hA.1; rw [hphase] at h1; simp at h1
        · have h1 := hB.1; rw [hphase] at h1; simp at h1
        · have h1 := hCc.1; rw [hphase] at h1; simp at h1
        · have h1 := hD.1; rw [hphase] at h1; simp at h1
      · exact ⟨fun _ => Or.inr rfl, fun _ => hR.2 (Or.inl hphase)⟩
  | dequeueStep i req rest'' hw hbuf =>
      refine ⟨?_, ?_, hR, hSR, ?_⟩
      · intro h0
        rcases hQ h0 with hA | hB | hCc | hD
        · rw [hA.2.1] at hbuf; simp at hbuf
        · obtain ⟨hph, hbufB, hidle, hflag, hfd, hgr, hgo⟩ := hB
          rw [hbufB] at hbuf
          have hreq : startRunRequest env.rsm = req ∧ ([] : List spaceRequest) = rest'' := by
            simpa using hbuf
          obtain ⟨hreq1, hreq2⟩ := hreq
          refine Or.inr (Or.inr (Or.inl ⟨hph, hreq2.symm, ⟨i, ⟨?_, ?_⟩, ?_⟩, hflag, hgr, hgo⟩))
          · rw [← hreq1]
            exact getElem?_set_self_of_some hw
          · intro k w hk hkw
            rw [List.getElem?_set_ne (fun h => hk h.symm)] at hkw
            exact allIdle_get hidle hkw
          · rw [hfd]; simp
        · rw [hCc.2.1] at hbuf; simp at hbuf
        · rw [hD.2.1] at hbuf; simp at hbuf
      · intro hcc
        obtain ⟨hf, hg, j, hgo, hfd⟩ := hC hcc
        refine ⟨hf, hg, j, hgo, ?_⟩
        rw [hfd]; simp
      · rw [List.length_set]; exact hlen
  | exitStep i hw hbuf hcc =>
      refine ⟨?_, hC, hR, hSR, ?_⟩
      · intro h0
        rcases hR.1 hcc with h | h <;>
          rcases hQ h0 with hA | hA | hA | hA <;>
          (have hph := hA.1; rw [h] at hph; simp at hph)
      · rw [List.length_set]; exact hlen
  | checkGateStep i req hw hflag =>
      refine ⟨?_, ?_, hR, hSR, ?_⟩
      · intro h0
        rcases hQ h0 with hA | hB | hCc | hD
        · have := allIdle_get hA.2.2.1 hw; simp at this
        · have := allIdle_get hB.2.2.1 hw; simp at this
        · obtain ⟨hph, hbuf, ⟨j, hsole, hfd⟩, hflag', hgr, hgo⟩ := hCc
          by_cases hij : i = j
          · subst hij
            have hreq' : startRunRequest env.rsm = req := by
              rw [hsole.1] at hw
              simpa using hw
            refine Or.inr (Or.inr (Or.inr ⟨hph, hbuf, ⟨i, ⟨?_, ?_⟩, hfd, rfl⟩, rfl, ?_⟩))
            · rw [← hreq']
              exact getElem?_set_self_of_some hw
            · intro k w hk hkw
              rw [List.getElem?_set_ne (fun h => hk h.symm)] at hkw
              exact hsole.2 k w hk hkw
            · rw [← hreq']
          · have := hsole.2 i _ hij hw; simp at this
        · obtain ⟨hph, hbuf, ⟨j, hsole, hfd, hgo⟩, hflag', hgr⟩ := hD
          rw [hflag'] at hflag; simp at hflag
      · intro hcc
        exact absurd hflag (by simp [(hC hcc).1])
      · rw [List.length_set]; exact hlen
  | checkNoGateStep i req hw hflag =>
      refine ⟨?_, hC, hR, hSR, ?_⟩
      · intro h0
        rcases hQ h0 with hA | hB | hCc | hD
        · rw [hA.2.2.2.1] at hflag; simp at hflag
        · rw [hB.2.2.2.1] at hflag; simp at hflag
        · rw [hCc.2.2.2.1] at hflag; simp at hflag
        · obtain ⟨hph, hbuf, ⟨j, hsole, hfd, hgo⟩, hflag', hgr⟩ := hD
          by_cases hij : i = j
          · subst hij; rw [hsole.1] at hw; simp at hw
          · have := hsole.2 i _ hij hw; simp at this
      · rw [List.length_set]; exact hlen
  | finishGateStep i req hw =>
      refine ⟨?_, ?_, hR, fun _ => rfl, ?_⟩
      · intro h0; simp at h0
      · intro _
        by_cases hcc : s.createdClosed = true
        · exact hC hcc
        · have h0 : s.createdClosed = false := by
            cases hv : s.createdClosed
            · rfl
            · exact absurd hv hcc
          rcases hQ h0 with hA | hB | hCc | hD
          · have := allIdle_get hA.2.2.1 hw; simp at this
          · have := allIdle_get hB.2.2.1 hw; simp at this
          · obtain ⟨hph, hbuf, ⟨j, hsole, hfd⟩, hflag', hgr, hgo⟩ := hCc
            by_cases hij : i = j
            · subst hij; rw [hsole.1] at hw; simp at hw
            · have := hsole.2 i _ hij hw; simp at this
          · obtain ⟨hph, hbuf, ⟨j, hsole, hfd, hgo⟩, hflag', hgr⟩ := hD
            exact ⟨hflag', hgr, j, hgo, hfd⟩
      · rw [List.length_set]; exact hlen
  | finishNormalStep i req hw =>
      refine ⟨?_, hC, hR, hSR, ?_⟩
      · intro h0
        rcases hQ h0 with hA | hB | hCc | hD
        · have := allIdle_get hA.2.2.1 hw; simp at this
        · have := allIdle_get hB.2.2.1 hw; simp at this
        · obtain ⟨hph, hbuf, ⟨j, hsole, hfd⟩, hflag', hgr, hgo⟩ := hCc
          by_cases hij : i = j
          · subst hij; rw [hsole.1] at hw; simp at hw
          · have := hsole.2 i _ hij hw; simp at this
        · obtain ⟨hph, hbuf, ⟨j, hsole, hfd, hgo⟩, hflag', hgr⟩ := hD
          by_cases hij : i = j
          · subst hij; rw [hsole.1] at hw; simp at hw
          · have := hsole.2 i _ hij hw; simp at this
      · rw [List.length_set]; exact hlen

/-- The invariant holds in every reachable state of a protocol-shaped
program. -/
theorem reachable_inv (env : ApiEnv) (rest : List COp) {s : SysState}
    (h : Reachable env (COp.startRun :: rest) s) : Inv env rest s := by
  induction h with
  | refl => exact inv_init env rest
  | tail _ hstep ih => exact inv_preserved env rest ih hstep

/-- No step ever unsets the `created` signal: Go's `close` on a
channel is irreversible. -/
theorem step_createdClosed_mono (env : ApiEnv) {s s' : SysState}
    (h : Step env s s') (hc : s.createdClosed = true) :
    s'.createdClosed = true := by
  cases h <;> first | exact hc | rfl

/-- Multi-step form of `step_createdClosed_mono`. -/
theorem steps_createdClosed_mono (env : ApiEnv) {s s' : SysState}
    (h : Relation.ReflTransGen (Step env) s s') (hc : s.createdClosed = true) :
    s'.createdClosed = true := by
  induction h with
  | refl => exact hc
  | tail _ hstep ih => exact step_createdClosed_mono env hstep ih

/-- Once some worker has become the gate-opener, no step changes that
fact (the flag is flipped at most once). -/
theorem step_gateOpener_stable (env : ApiEnv) (rest : List COp) {s s' : SysState}
    (hinv : Inv env rest s) (h : Step env s s') {i : Nat}
    (hgo : s.gateOpener = some i) : s'.gateOpener = some i := by
  obtain ⟨hQ, hC, -, -, -⟩ := hinv
  cases h
  case checkGateStep j req hw hflag =>
      exfalso
      cases hcv : s.createdClosed with
      | true => rw [(hC hcv).1] at hflag; simp at hflag
      | false =>
          rcases hQ hcv with hA | hB | hCc | hD
          · rw [hA.2.2.2.2.2.2] at hgo; simp at hgo
          · rw [hB.2.2.2.2.2.2] at hgo; simp at hgo
          · rw [hCc.2.2.2.2.2] at hgo; simp at hgo
          · rw [hD.2.2.2.1] at hflag; simp at hflag
  all_goals exact hgo

/-- The invariant propagates along any suffix of a run. -/
theorem steps_inv (env : ApiEnv) (rest : List COp) {s s' : SysState}
    (hinv : Inv env rest s)
    (h : Relation.ReflTransGen (Step env) s s') : Inv env rest s' := by
  induction h with
  | refl => exact hinv
  | tail _ hstep ih => exact inv_preserved env rest ih hstep

/-- Multi-step form of `step_gateOpener_stable`, carrying the
invariant along the run. -/
theorem steps_gateOpener_stable (env : ApiEnv) (rest : List COp) {s s' : SysState}
    (hinv : Inv env rest s)
    (h : Relation.ReflTransGen (Step env) s s') {i : Nat}
    (hgo : s.gateOpener = some i) : s'.gateOpener = some i := by
  induction h with
  | refl => exact hgo
  | tail hsteps hstep ih =>
      exact step_gateOpener_stable env rest (steps_inv env rest hinv hsteps) hstep ih

/-- In every reachable state, a recorded gate request is the
create-run descriptor. -/
theorem gateReq_is_startRun (env : ApiEnv) (rest : List COp) {s : SysState}
    (h : Reachable env (COp.startRun :: rest) s) {r : spaceRequest}
    (hgr : s.gateReq = some r) : r = startRunRequest env.rsm := by
  obtain ⟨hQ, hC, -, -, -⟩ := reachable_inv env rest h
  cases hcv : s.createdClosed with
  | true =>
      have := (hC hcv).2.1
      rw [hgr] at this
      simpa using this
  | false =>
      rcases hQ hcv with hA | hB | hCc | hD
      · rw [hA.2.2.2.2.2.1] at hgr; simp at hgr
      · rw [hB.2.2.2.2.2.1] at hgr; simp at hgr
      · rw [hCc.2.2.2.2.1] at hgr; simp at hgr
      · have := hD.2.2.2.2
        rw [hgr] at this
        simpa using this

/-- An explicit schedule: client enqueues the create-run descriptor,
worker 0 dequeues it, opens the gate, processes it (with whatever
outcome the environment yields) and closes `created`; the client then
wakes.  Valid for every environment. -/
theorem reach_created (env : ApiEnv) (rest : List COp) :
    ∃ s, Reachable env (COp.startRun :: rest) s ∧ s.createdClosed = true ∧
      s.gateOpener = some 0 ∧ s.startReturned = true := by
  refine
    ⟨{ phase := ClientPhase.running rest
       buf := []
       chanClosed := false
       firstReqDone := true
       createdClosed := true
       shared := makeRequest env { run := { ID := "", URL := "" }, errors := [] }
         (startRunRequest env.rsm)
       workers :=
         (((List.replicate processors WStat.idle).set 0
             (WStat.gotReq (startRunRequest env.rsm))).set 0
             (WStat.processingGate (startRunRequest env.rsm))).set 0 WStat.idle
       gateOpener := some 0
       gateReq := some (startRunRequest env.rsm)
       firstDeq := some 0
       startReturned := true }, ?_, rfl, rfl, rfl⟩
  refine Relation.ReflTransGen.head (Step.startRunStep _ rest rfl) ?_
  refine Relation.ReflTransGen.head
    (Step.dequeueStep _ 0 (startRunRequest env.rsm) [] rfl rfl) ?_
  refine Relation.ReflTransGen.head
    (Step.checkGateStep _ 0 (startRunRequest env.rsm) rfl rfl) ?_
  refine Relation.ReflTransGen.head
    (Step.finishGateStep _ 0 (startRunRequest env.rsm) rfl) ?_
  exact Relation.ReflTransGen.single (Step.wakeStep _ rest rfl rfl)

/-- Global progress: a reachable state is either terminal (client
program exhausted or properly finished) or some step is enabled — in
particular the pool never deadlocks. -/
theorem progress (env : ApiEnv) (rest : List COp) {s : SysState}
    (h : Reachable env (COp.startRun :: rest) s) :
    s.phase = ClientPhase.running [] ∨ s.phase = ClientPhase.finished ∨
      ∃ s', Step env s s' := by
  obtain ⟨hQ, hC, hR, hSR, hlen⟩ := reachable_inv env rest h
  cases hph : s.phase with
  | running ops =>
      cases ops with
      | nil => exact Or.inl rfl
      | cons op rest' =>
          refine Or.inr (Or.inr ?_)
          cases op with
          | startRun => exact ⟨_, Step.startRunStep s rest' hph⟩
          | postTask t => exact ⟨_, Step.postTaskStep s t rest' hph⟩
          | finishRun => exact ⟨_, Step.finishRunStep s rest' hph⟩
          | closeOp => exact ⟨_, Step.closeStep s rest' hph⟩
  | waitingCreated ops =>
      refine Or.inr (Or.inr ?_)
      cases hcv : s.createdClosed with
      | true => exact ⟨_, Step.wakeStep s ops hph hcv⟩
      | false =>
          rcases hQ hcv with hA | hB | hCc | hD
          · have h1 := hA.1; rw [hph] at h1; simp at h1
          · have hlt : 0 < s.workers.length := by
              rw [hlen]; decide
            have hw0 : s.workers[0]? = some WStat.idle := by
              rw [List.getElem?_eq_getElem hlt]
              exact congrArg some (hB.2.2.1 _ (List.getElem_mem hlt))
            exact ⟨_, Step.dequeueStep s 0 (startRunRequest env.rsm) [] hw0 hB.2.1⟩
          · obtain ⟨-, -, ⟨j, hsole, -⟩, hflag, -, -⟩ := hCc
            exact ⟨_, Step.checkGateStep s j _ hsole.1 hflag⟩
          · obtain ⟨-, -, ⟨j, hsole, -, -⟩, -, -⟩ := hD
            exact ⟨_, Step.finishGateStep s j _ hsole.1⟩
  | waitingClose =>
      refine Or.inr (Or.inr ?_)
      by_cases hall : ∀ w ∈ s.workers, w = WStat.stopped
      · exact ⟨_, Step.closeDoneStep s hph hall⟩
      · push_neg at hall
        obtain ⟨w, hwmem, hwne⟩ := hall
        obtain ⟨k, hk⟩ := List.mem_iff_getElem?.1 hwmem
        have hclosed : s.chanClosed = true := hR.2 (Or.inl hph)
        cases w with
        | idle =>
            cases hbuf : s.buf with
            | nil => exact ⟨_, Step.exitStep s k hk hbuf hclosed⟩
            | cons r rs => exact ⟨_, Step.dequeueStep s k r rs hk hbuf⟩
        | gotReq r =>
            cases hfv : s.firstReqDone with
            | false => exact ⟨_, Step.checkGateStep s k r hk hfv⟩
            | true => exact ⟨_, Step.checkNoGateStep s k r hk hfv⟩
        | processingGate r => exact ⟨_, Step.finishGateStep s k r hk⟩
        | processingNormal r => exact ⟨_, Step.finishNormalStep s k r hk⟩
        | stopped => exact absurd rfl hwne
  | finished => exact Or.inr (Or.inl rfl)

/-- A successful pass through the steps returns the request itself,
with only the URL possibly rewritten by the resolver: in particular
the completion callback is unchanged. -/
theorem runStepsResolved_ok_eq (env : ApiEnv) (req : spaceRequest)
    {r' : spaceRequest} {resp : Option Resp}
    (h : runStepsResolved env req = Except.ok (r', resp)) : r' = req := by
  unfold runStepsResolved at h
  split_ifs at h with h1 h2 h3 h4
  · cases hm : env.marshal req.body with
    | error e => simp [hm] at h
    | ok payload =>
        rcases hpr : env.jsonPost req.url payload with ⟨rr, ee⟩
        simp only [hm, hpr] at h
        cases ee with
        | some e => simp at h
        | none =>
            simp only [Except.ok.injEq, Prod.mk.injEq] at h
            exact h.1.symm
  · cases hm : env.marshal req.body with
    | error e => simp [hm] at h
    | ok payload =>
        rcases hpr : env.jsonPatch req.url payload with ⟨rr, ee⟩
        simp only [hm, hpr] at h
        cases ee with
        | some e => simp at h
        | none =>
            simp only [Except.ok.injEq, Prod.mk.injEq] at h
            exact h.1.symm

/-- The request a successful `runSteps` returns carries the original
completion callback. -/
theorem runSteps_ok_onDone (env : ApiEnv) (run : spaceRun) (req : spaceRequest)
    {r' : spaceRequest} {resp : Option Resp}
    (h : runSteps env run req = Except.ok (r', resp)) :
    r'.onDone = req.onDone := by
  cases hmk : req.makeURL with
  | none =>
      simp only [runSteps, hmk] at h
      rw [runStepsResolved_ok_eq env req h]
  | some mk =>
      cases hres : mk run with
      | error e =>
          simp only [runSteps, hmk, hres] at h
          simp at h
      | ok u =>
          simp only [runSteps, hmk, hres] at h
          rw [runStepsResolved_ok_eq env _ h]

/-! ## The claims -/

/-- C1: under the documented caller contract (the orchestrator's first
operation is `startRun`), (i) once some worker has become the
gate-opener no other worker ever does (the flag flips exactly once);
(ii) the `created` signal, once set, is never reset; (iii) in every
reachable state the descriptor processed under the gate is the very
first descriptor ever enqueued — the create-run descriptor — and the
gate-opener is the worker that performed the first dequeue, and the
signal can only be set after the gate was opened on that descriptor;
(iv) for every environment — the transport may fail — some execution
sets the signal with a unique gate-opener recorded, i.e. the signal is
set regardless of whether processing succeeded. -/
theorem claim_C1 (env : ApiEnv) (rest : List COp) :
    (∀ s s' i, Reachable env (COp.startRun :: rest) s →
      Relation.ReflTransGen (Step env) s s' →
      s.gateOpener = some i → s'.gateOpener = some i) ∧
    (∀ s s', Reachable env (COp.startRun :: rest) s →
      Relation.ReflTransGen (Step env) s s' →
      s.createdClosed = true → s'.createdClosed = true) ∧
    (∀ s, Reachable env (COp.startRun :: rest) s →
      (∀ r, s.gateReq = some r → r = startRunRequest env.rsm) ∧
      (∀ i, s.gateOpener = some i → s.firstDeq = some i) ∧
      (s.createdClosed = true →
        s.firstReqDone = true ∧ s.gateReq = some (startRunRequest env.rsm))) ∧
    (∃ s, Reachable env (COp.startRun :: rest) s ∧ s.createdClosed = true ∧
      s.gateOpener.isSome = true) := by
  refine ⟨?_, ?_, ?_, ?_⟩
  · intro s s' i hreach hsteps hgo
    exact steps_gateOpener_stable env rest (reachable_inv env rest hreach) hsteps hgo
  · intro s s' _ hsteps hcc
    exact steps_createdClosed_mono env hsteps hcc
  · intro s hreach
    obtain ⟨hQ, hC, -, -, -⟩ := reachable_inv env rest hreach
    refine ⟨fun r hgr => gateReq_is_startRun env rest hreach hgr, ?_,
      fun hcc => ⟨(hC hcc).1, (hC hcc).2.1⟩⟩
    intro i hgo
    cases hcv : s.createdClosed with
    | true =>
        obtain ⟨-, -, j, hgoj, hfdj⟩ := hC hcv
        rw [hgo] at hgoj
        have hij : i = j := by simpa using hgoj
        rw [hij]; exact hfdj
    | false =>
        rcases hQ hcv with hA | hB | hCc | hD
        · rw [hA.2.2.2.2.2.2] at hgo; simp at hgo
        · rw [hB.2.2.2.2.2.2] at hgo; simp at hgo
        · rw [hCc.2.2.2.2.2] at hgo; simp at hgo
        · obtain ⟨-, -, ⟨j, -, hfd, hgoj⟩, -, -⟩ := hD
          rw [hgo] at hgoj
          have hij : i = j := by simpa using hgoj
          rw [hij]; exact hfd
  · obtain ⟨s, hs, hcc, hgo, -⟩ := reach_created env rest
    exact ⟨s, hs, hcc, by rw [hgo]; rfl⟩

/-- Witness for C1 at a concrete failing environment: the signal is
set with a gate-opener recorded even though the transport fails. -/
theorem claim_C1_witness :
    ∃ s, Reachable envFail [COp.startRun] s ∧ s.createdClosed = true ∧
      s.gateOpener.isSome = true :=
  (claim_C1 envFail []).2.2.2

/-- C2: while the run handle's id is empty (the create-run call
failed), every processed `postTask` or `finishRun` descriptor records
exactly one missing-run-id error and leaves the handle unchanged;
draining a whole queue of such descriptors records exactly one error
each; and the system can always progress (in particular `close`
returns: no reachable state of a protocol run is stuck). -/
theorem claim_C2 (env : ApiEnv) (st : ClientState) (task : TaskSummary) :
    (st.run.ID = "" →
      makeRequest env st (postTaskRequest env.rsm task) =
        { st with errors := st.errors ++
            ["No Run ID found to post task " ++ task.TaskID] }) ∧
    (st.run.ID = "" →
      makeRequest env st (finishRunRequest env.rsm) =
        { st with errors := st.errors ++
            ["No Run ID found to send PATCH request"] }) ∧
    (∀ ds, st.run.ID = "" →
      (∀ d ∈ ds, (∃ t, d = postTaskRequest env.rsm t) ∨ d = finishRunRequest env.rsm) →
      (processAll env st ds).errors.length = st.errors.length + ds.length ∧
        (processAll env st ds).run = st.run) ∧
    (∀ rest s, Reachable env (COp.startRun :: rest) s →
      s.phase = ClientPhase.running [] ∨ s.phase = ClientPhase.finished ∨
        ∃ s', Step env s s') :=
  ⟨fun h => postTask_noRunId env st task h,
   fun h => finishRun_noRunId env st h,
   fun ds h hds => processAll_noRunId env ds st h hds,
   fun rest _ h => progress env rest h⟩

/-- Witness for C2: concrete failed-create-run client state. -/
theorem claim_C2_witness :
    makeRequest envFail emptyClientState (postTaskRequest envFail.rsm task0) =
      { emptyClientState with
        errors := ["No Run ID found to post task " ++ task0.TaskID] } ∧
    (processAll envFail emptyClientState
      [postTaskRequest envFail.rsm task0, finishRunRequest envFail.rsm]).errors.length = 2 := by
  have h := claim_C2 envFail emptyClientState task0
  constructor
  · have h1 := h.1 rfl
    simpa using h1
  · have h2 := (h.2.2.1 [postTaskRequest envFail.rsm task0, finishRunRequest envFail.rsm]
      rfl ?_).1
    · simpa using h2
    · intro d hd
      simp only [List.mem_cons, List.not_mem_nil, or_false] at hd
      rcases hd with rfl | rfl
      · exact Or.inl ⟨task0, rfl⟩
      · exact Or.inr rfl

/-- C3: the descriptor `startRun` enqueues carries the fixed
create-run URL built from the space identifier; in every reachable
state, if `startRun` has returned then the `created` signal is set
(it returns only after the signal); and for every environment —
success or failure of the call — some execution does return from
`startRun` with the signal set (liveness). -/
theorem claim_C3 (env : ApiEnv) (rest : List COp) :
    ((startRunRequest env.rsm).url = "/v0/spaces/" ++ env.rsm.spaceID ++ "/runs") ∧
    (∀ s, Reachable env (COp.startRun :: rest) s → s.startReturned = true →
      s.createdClosed = true) ∧
    (∃ s, Reachable env (COp.startRun :: rest) s ∧ s.startReturned = true ∧
      s.createdClosed = true) := by
  refine ⟨rfl, ?_, ?_⟩
  · intro s h hsr
    exact (reachable_inv env rest h).2.2.2.1 hsr
  · obtain ⟨s, hs, hcc, -, hsrt⟩ := reach_created env rest
    exact ⟨s, hs, hsrt, hcc⟩

/-- Witness for C3 at the concrete failing environment. -/
theorem claim_C3_witness :
    (startRunRequest envFail.rsm).url = "/v0/spaces/myspace/runs" ∧
    (∃ s, Reachable envFail [COp.startRun] s ∧ s.startReturned = true ∧
      s.createdClosed = true) := by
  refine ⟨?_, (claim_C3 envFail []).2.2⟩
  exact ((claim_C3 envFail []).1).trans (by decide)

/-- C6: processing of one descriptor performs, in order: lazy URL
resolution (when a resolver is present), the space-configured check,
the repo-linked check, body serialization, transport dispatch by verb;
the first failing step appends exactly one error to the error list and
stops processing of that descriptor (the resulting state shows no
effect of any later step), and a failure never halts the draining of
the remaining descriptors. -/
theorem claim_C6 (env : ApiEnv) (st : ClientState) (req : spaceRequest) :
    (∀ mk e, req.makeURL = some mk → mk st.run = Except.error e →
      makeRequest env st req = { st with errors := st.errors ++ [e] }) ∧
    (∀ mk u, req.makeURL = some mk → mk st.run = Except.ok u →
      makeRequest env st req =
        makeRequestResolved env st { req with url := u, makeURL := some mk }) ∧
    (req.makeURL = none → makeRequest env st req = makeRequestResolved env st req) ∧
    (env.rsm.spaceID = "" →
      makeRequestResolved env st req =
        { st with errors := st.errors ++ [req.errorMsg "No spaceID found"] }) ∧
    (env.rsm.spaceID ≠ "" → env.isLinked = false →
      makeRequestResolved env st req =
        { st with errors := st.errors ++
            [req.errorMsg "Repo is not linked to a Space. Run `turbo link --target=spaces` first"] }) ∧
    (env.rsm.spaceID ≠ "" → env.isLinked = true →
      req.method ≠ "POST" → req.method ≠ "PATCH" →
      makeRequestResolved env st req =
        { st with errors := st.errors ++
            [req.errorMsg ("Unsupported method " ++ req.method)] }) ∧
    (∀ e, env.rsm.spaceID ≠ "" → env.isLinked = true → req.method = "POST" →
      env.marshal req.body = Except.error e →
      makeRequestResolved env st req =
        { st with errors := st.errors ++
            [req.errorMsg ("Failed to create payload: " ++ e)] }) ∧
    (∀ payload resp e, env.rsm.spaceID ≠ "" → env.isLinked = true →
      req.method = "POST" →
      env.marshal req.body = Except.ok payload →
      env.jsonPost req.url payload = (resp, some e) →
      makeRequestResolved env st req =
        { st with errors := st.errors ++ [req.errorMsg e] }) ∧
    (∀ ds, processAll env st (req :: ds) = processAll env (makeRequest env st req) ds) := by
  refine ⟨?_, ?_, ?_, ?_, ?_, ?_, ?_, ?_, fun ds => rfl⟩
  · intro mk e hmk hres
    simp only [makeRequest, hmk, hres]
  · intro mk u hmk hres
    simp only [makeRequest, hmk, hres]
  · intro hmk
    simp only [makeRequest, hmk]
  · intro hsp
    unfold makeRequestResolved
    rw [if_pos hsp]
  · intro hsp hlink
    unfold makeRequestResolved
    rw [if_neg hsp, if_pos hlink]
  · intro hsp hlink hpost hpatch
    unfold makeRequestResolved
    rw [if_neg hsp, if_neg (by simp [hlink]), if_pos ⟨hpost, hpatch⟩]
  · intro e hsp hlink hmeth hm
    unfold makeRequestResolved
    rw [if_neg hsp, if_neg (by simp [hlink]),
      if_neg (by simp [hmeth]), hm]
  · intro payload resp e hsp hlink hmeth hm hpost
    unfold makeRequestResolved
    rw [if_neg hsp, if_neg (by simp [hlink]), if_neg (by simp [hmeth])]
    simp [hm, hmeth, hpost]

/-- Witness for C6: a resolver failure on a concrete descriptor. -/
theorem claim_C6_witness :
    makeRequest envFail emptyClientState (postTaskRequest envFail.rsm task0) =
      { emptyClientState with
        errors := [] ++ ["No Run ID found to post task " ++ task0.TaskID] } :=
  (claim_C6 envFail emptyClientState (postTaskRequest envFail.rsm task0)).1 _ _ rfl rfl

/-- C7: a descriptor's completion callback is invoked with the raw
response bytes exactly when all steps up to and including the
transport call succeed — on any failure the resulting state is the
single-error append and mentions no callback; the create-run
descriptor's callback parses a well-formed response into the run
handle's id and url, and appends an unmarshal error for a malformed
response. -/
theorem claim_C7 (env : ApiEnv) (st : ClientState) (req : spaceRequest) :
    (∀ f r' resp, req.onDone = some f →
      runSteps env st.run req = Except.ok (r', resp) →
      makeRequest env st req = f resp st) ∧
    (∀ e, runSteps env st.run req = Except.error e →
      makeRequest env st req = { st with errors := st.errors ++ [e] }) ∧
    ((startRunRequest env.rsm).onDone = some startRunOnDone) ∧
    (∀ i u, startRunOnDone (some (Resp.runJSON i u)) st =
      { st with run := { st.run with ID := i, URL := u } }) ∧
    (∀ msg, startRunOnDone (some (Resp.malformed msg)) st =
      { st with errors := st.errors ++ ["Error unmarshaling response: " ++ msg] }) := by
  refine ⟨?_, ?_, rfl, fun i u => rfl, fun msg => rfl⟩
  · intro f r' resp hf hok
    rw [makeRequest_eq_outcome, hok]
    have hod : r'.onDone = some f := by
      rw [runSteps_ok_onDone env st.run req hok]; exact hf
    simp only [hod]
  · intro e herr
    rw [makeRequest_eq_outcome, herr]

/-- Witness for C7: a failing transport yields the single error and
no callback effect, on concrete inputs. -/
theorem claim_C7_witness :
    makeRequest envFail emptyClientState (startRunRequest envFail.rsm) =
      { emptyClientState with
        errors := [] ++
          [(startRunRequest envFail.rsm).errorMsg "network down"] } :=
  (claim_C7 envFail emptyClientState (startRunRequest envFail.rsm)).2.1 _ rfl

/-- C8: the task payload maps identity fields 1:1 from the given task
summary (key = task id, name = task, workspace = package, hash),
carries the cache's `timeSaved`, and the emitted JSON omits the raw
`local`/`remote` booleans everywhere they could appear: the nested
`cache` object (whose fields carry those tags in the source, and
which is proven to be the object actually emitted under the `cache`
key) has no such key, and neither does any key at any depth of the
whole emitted task JSON. -/
theorem claim_C8 (ts : TaskSummary)
    (h1 : ts.TaskID = "web#build") (h2 : ts.Task = "build")
    (h3 : ts.Package = "web") (h4 : ts.Hash = "abc123")
    (h5 : ts.Execution.exitCode = 0)
    (h6 : ts.CacheSummary.Local = true) (h7 : ts.CacheSummary.Status = "HIT")
    (h8 : ts.CacheSummary.TimeSaved = 42) :
    (newSpacesTaskPayload ts).Key = "web#build" ∧
    (newSpacesTaskPayload ts).Name = "build" ∧
    (newSpacesTaskPayload ts).Workspace = "web" ∧
    (newSpacesTaskPayload ts).Hash = "abc123" ∧
    (newSpacesTaskPayload ts).Cache.TimeSaved = 42 ∧
    (newSpacesTaskPayload ts).Cache.Local = true ∧
    (newSpacesTaskPayload ts).Cache.Status = "HIT" ∧
    (newSpacesTaskPayload ts).ExitCode = 0 ∧
    (("cache", JValue.jobj (newSpacesTaskPayload ts).Cache.jsonFields) ∈
      (newSpacesTaskPayload ts).jsonFields) ∧
    (∀ kv ∈ (newSpacesTaskPayload ts).Cache.jsonFields,
      kv.1 ≠ "local" ∧ kv.1 ≠ "remote") ∧
    (∀ kv ∈ (newSpacesTaskPayload ts).jsonFields,
      kv.1 ≠ "local" ∧ kv.1 ≠ "remote") ∧
    ∀ k ∈ (JValue.jobj (newSpacesTaskPayload ts).jsonFields).allKeys,
      k ≠ "local" ∧ k ≠ "remote" :=
  ⟨h1, h2, h3, h4, h8, h6, h7, h5,
   spacesTask_jsonFields_cache_mem _,
   fun kv hkv => (spacesCacheStatus_jsonFields_keys _ kv hkv).1,
   spacesTask_jsonFields_no_raw_booleans _,
   spacesTask_json_no_raw_booleans_anywhere _⟩

/-- Witness for C8 at the concrete task summary. -/
theorem claim_C8_witness :
    (newSpacesTaskPayload task0).Key = "web#build" ∧
    (newSpacesTaskPayload task0).Name = "build" ∧
    (newSpacesTaskPayload task0).Workspace = "web" ∧
    (newSpacesTaskPayload task0).Hash = "abc123" ∧
    (newSpacesTaskPayload task0).Cache.TimeSaved = 42 ∧
    (newSpacesTaskPayload task0).Cache.Local = true ∧
    (newSpacesTaskPayload task0).Cache.Status = "HIT" ∧
    (newSpacesTaskPayload task0).ExitCode = 0 ∧
    (("cache", JValue.jobj (newSpacesTaskPayload task0).Cache.jsonFields) ∈
      (newSpacesTaskPayload task0).jsonFields) ∧
    (∀ kv ∈ (newSpacesTaskPayload task0).Cache.jsonFields,
      kv.1 ≠ "local" ∧ kv.1 ≠ "remote") ∧
    (∀ kv ∈ (newSpacesTaskPayload task0).jsonFields,
      kv.1 ≠ "local" ∧ kv.1 ≠ "remote") ∧
    ∀ k ∈ (JValue.jobj (newSpacesTaskPayload task0).jsonFields).allKeys,
      k ≠ "local" ∧ k ≠ "remote" :=
  claim_C8 task0 rfl rfl rfl rfl rfl rfl rfl rfl

/-- C9: a run completing with exit code 1 yields an update-run payload
with status `completed`, exit code 1, the end time of the execution
summary, and a JSON object without `startTime`. -/
theorem claim_C9 (rs : RunSummary) (h : rs.ExecutionSummary.exitCode = 1) :
    (newSpacesDonePayload rs).Status = "completed" ∧
    (newSpacesDonePayload rs).ExitCode = 1 ∧
    (newSpacesDonePayload rs).EndTime = rs.ExecutionSummary.endedAt ∧
    ∀ kv ∈ (newSpacesDonePayload rs).jsonFields, kv.1 ≠ "startTime" :=
  ⟨rfl, h, rfl, spacesRunPayload_jsonFields_no_startTime _ rfl⟩

/-- Witness for C9 at the concrete run summary. -/
theorem claim_C9_witness :
    (newSpacesDonePayload rs0).Status = "completed" ∧
    (newSpacesDonePayload rs0).ExitCode = 1 ∧
    (newSpacesDonePayload rs0).EndTime = 200 ∧
    ∀ kv ∈ (newSpacesDonePayload rs0).jsonFields, kv.1 ≠ "startTime" :=
  claim_C9 rs0 rfl

/-- C10: if the transport reports success for the create-run request
but returns nil response bytes, the completion callback records no
error and does not populate the run handle — the client state is
entirely unchanged — so a later `postTask` descriptor fails URL
resolution with the missing-run-id error although create-run
"succeeded". -/
theorem claim_C10 (env : ApiEnv) (st : ClientState) (task : TaskSummary)
    (pay : String)
    (hID : st.run.ID = "")
    (hsp : env.rsm.spaceID ≠ "")
    (hlink : env.isLinked = true)
    (hm : env.marshal (spacesBody.runBody (newSpacesRunCreatePayload env.rsm)) =
      Except.ok pay)
    (hpost : env.jsonPost (runsEndpointFor env.rsm.spaceID) pay = (none, none)) :
    makeRequest env st (startRunRequest env.rsm) = st ∧
    makeRequest env st (postTaskRequest env.rsm task) =
      { st with errors := st.errors ++
          ["No Run ID found to post task " ++ task.TaskID] } := by
  refine ⟨?_, postTask_noRunId env st task hID⟩
  simp only [makeRequest, startRunRequest, makeRequestResolved]
  rw [if_neg hsp]
  rw [if_neg (by simp [hlink])]
  rw [if_neg (by decide)]
  simp [hm, hpost, startRunOnDone]

/-- Witness for C10 at the concrete nil-response environment. -/
theorem claim_C10_witness :
    makeRequest envNilResp emptyClientState (startRunRequest envNilResp.rsm) =
      emptyClientState ∧
    makeRequest envNilResp emptyClientState (postTaskRequest envNilResp.rsm task0) =
      { emptyClientState with
        errors := [] ++ ["No Run ID found to post task " ++ task0.TaskID] } :=
  claim_C10 envNilResp emptyClientState task0 "body" rfl (by decide) rfl rfl rfl

/-- C4: the error-list appends are NOT protected by mutual exclusion —
the only mutex of the file guards `firstReqDone`, and the appends run
outside it — so two workers' appends can interleave.  This exhibits a
complete interleaving of `raceStep` in which both workers finish their
`c.errors = append(c.errors, err)` statement, yet the final list holds
only one of the two recorded errors: the first worker's error message
is lost, so the claimed exclusive access does not hold in the code. -/
theorem claim_C4 :
    ∃ sf, Relation.ReflTransGen raceStep raceInit sf ∧
      sf.w1 = appendPC.done ∧ sf.w2 = appendPC.done ∧
      sf.errors = ["No Run ID found to post task web#build"] ∧
      sf.errors.length = 1 ∧
      "No Run ID found to post task app#build" ∉ sf.errors := by
  refine ⟨{ errors := ["No Run ID found to post task web#build"]
            w1 := appendPC.done
            w2 := appendPC.done }, ?_, rfl, rfl, rfl, rfl, by decide⟩
  refine Relation.ReflTransGen.head (raceStep.load1 _ _ rfl) ?_
  refine Relation.ReflTransGen.head (raceStep.load2 _ _ rfl) ?_
  refine Relation.ReflTransGen.head (raceStep.store1 _ _ _ rfl) ?_
  exact Relation.ReflTransGen.single (raceStep.store2 _ _ _ rfl)

/-- C5: `Close` runs `close(c.requests)` unconditionally, and Go
panics when closing an already-closed channel: the first `Close`
succeeds, a second `Close` panics — so a double close is neither a
no-op nor safely rejected.  `Close` before `startRun` is safe: the
workers drain the empty channel and the system reaches `finished`
with no recorded errors and no panic. -/
theorem claim_C5 :
    spacesClose { closed := false } = Except.ok { closed := true } ∧
    spacesClose { closed := true } = Except.error "close of closed channel" ∧
    (∃ s, Reachable envFail [COp.closeOp] s ∧ s.phase = ClientPhase.finished ∧
      s.shared.errors = []) := by
  refine ⟨rfl, rfl, ?_⟩
  refine
    ⟨{ phase := ClientPhase.finished
       buf := []
       chanClosed := true
       firstReqDone := false
       createdClosed := false
       shared := { run := { ID := "", URL := "" }, errors := [] }
       workers := List.replicate processors WStat.stopped
       gateOpener := none
       gateReq := none
       firstDeq := none
       startReturned := false }, ?_, rfl, rfl⟩
  refine Relation.ReflTransGen.head (Step.closeStep _ [] rfl) ?_
  refine Relation.ReflTransGen.head (Step.exitStep _ 0 rfl rfl rfl) ?_
  refine Relation.ReflTransGen.head (Step.exitStep _ 1 rfl rfl rfl) ?_
  refine Relation.ReflTransGen.head (Step.exitStep _ 2 rfl rfl rfl) ?_
  refine Relation.ReflTransGen.head (Step.exitStep _ 3 rfl rfl rfl) ?_
  refine Relation.ReflTransGen.head (Step.exitStep _ 4 rfl rfl rfl) ?_
  refine Relation.ReflTransGen.head (Step.exitStep _ 5 rfl rfl rfl) ?_
  refine Relation.ReflTransGen.head (Step.exitStep _ 6 rfl rfl rfl) ?_
  refine Relation.ReflTransGen.head (Step.exitStep _ 7 rfl rfl rfl) ?_
  exact Relation.ReflTransGen.single
    (Step.closeDoneStep _ rfl
      (fun w hw => List.eq_of_mem_replicate
        (show w ∈ List.replicate 8 WStat.stopped from hw)))

end TurboSpaces
